import Mathlib

/-!
ESP32 Teachable-Machine capture page: a model of the page script.

The repository ships one page (`GetImageCamServer/tm_capture_page.h`) whose
script previews a camera feed, records downsized grayscale stills on a timer
and exports them as a ZIP archive.  This file embeds that script:

* the grayscale arithmetic of `applyGrayscale`, with binary64 arithmetic
  carried out exactly on integers scaled by `2 ^ 56`;
* the entry naming and the archive assembly of `buildZip`;
* the session (script variables, page elements, suspended asynchronous calls)
  with one transition per callback that the browser can run.

Every callback of the script runs to completion before the next one starts, so
a transition is a function on `Session`.  A call that is suspended at an
`await` is kept in the session until the event that resumes it.
-/

namespace TmCapture

/-! ## Binary64 arithmetic used by `applyGrayscale` -/

/-- Number of low bits that do not fit a 53-bit significand: the least `sh ≥ k`
with `n < 2 ^ (53 + sh)`, searched upwards from `k`. -/
def findShift : Nat → Nat → Nat → Nat
  | 0, _, k => k
  | fuel + 1, n, k => if n < 2 ^ (53 + k) then k else findShift fuel n (k + 1)

/-- Round-to-nearest, ties-to-even, to 53 significant bits.  The argument and
the result are the binary64 values scaled by `2 ^ 56`; every value that occurs
in `applyGrayscale` is a multiple of `2 ^ (-56)` below `256`. -/
def roundTo53 (n : Nat) : Nat :=
  let sh := findShift 2048 n 0
  if sh = 0 then n
  else
    let q := n / 2 ^ sh
    let rem := n % 2 ^ sh
    let half := 2 ^ (sh - 1)
    if rem > half ∨ (rem = half ∧ q % 2 = 1) then (q + 1) * 2 ^ sh else q * 2 ^ sh

/-- The literal `0.299` as a binary64 (`0x1.322d0e5604189p-2`), times `2 ^ 56`. -/
def c299 : Nat := 21545220617340452

/-- The literal `0.587` as a binary64 (`0x1.2c8b439581062p-1`), times `2 ^ 56`. -/
def c587 : Nat := 42297807700263696

/-- The literal `0.114` as a binary64 (`0x1.d2f1a9fbe76c9p-4`), times `2 ^ 56`. -/
def c114 : Nat := 8214565720323785

/-- The value of `0.299 * r + 0.587 * g + 0.114 * b`, times `2 ^ 56`: three rounded
products, added left to right with a rounding after each addition. -/
def luma (r g b : Nat) : Nat :=
  roundTo53 (roundTo53 (roundTo53 (c299 * r) + roundTo53 (c587 * g)) + roundTo53 (c114 * b))

/-- `Math.round` on a non-negative value scaled by `2 ^ 56`: the closest integer,
the larger one when two are equally close. -/
def mathRound (x : Nat) : Nat := (x + 2 ^ 55) / 2 ^ 56

/-- The byte that `data[i] = gray` stores: a `Uint8ClampedArray` clamps to 255. -/
def grayOf (r g b : Nat) : Nat := min (mathRound (luma r g b)) 255

/-- The loop of `applyGrayscale` over the canvas bytes, four at a time.  The
last three cases are what the loop does on a tail shorter than one pixel (a
missing operand makes the sum `NaN`, stored as 0); canvas data has no such tail. -/
def applyGrayscale : List Nat → List Nat
  | r :: g :: b :: a :: rest =>
    grayOf r g b :: grayOf r g b :: grayOf r g b :: a :: applyGrayscale rest
  | [r, g, b] => [grayOf r g b, grayOf r g b, grayOf r g b]
  | [_, _] => [0, 0]
  | [_] => [0]
  | [] => []

/-! ## Archive entries (`buildZip`) -/

/-- An image payload; only its identity matters. -/
abbrev Blob := Nat

deriving instance DecidableEq for Except

/-- A value thrown by the script or by the browser. -/
inductive Thrown
  | falsy
  | object (message : Option String)
deriving DecidableEq, Repr

/-- `String.prototype.padStart` with a one-character pad string. -/
def padStart (s : String) (targetLength : Nat) (c : Char) : String :=
  String.mk (List.replicate (targetLength - s.length) c) ++ s

/-- The entry name built in the `forEach` callback of `buildZip`;
`index` is the zero-based position handed over by `forEach`. -/
def filename (index : Nat) : String :=
  "capture_" ++ padStart (Nat.repr (index + 1)) 4 '0' ++ ".jpg"

/-- The files of a JSZip instance, in insertion order. -/
abbrev Zip := List (String × Blob)

/-- The method `zip.file(name, data)`: a new entry, or the replacement of the
entry that already has this name. -/
def Zip.file (zip : Zip) (name : String) (data : Blob) : Zip :=
  if zip.any (fun e => e.1 == name) then
    zip.map (fun e => if e.1 == name then (name, data) else e)
  else zip ++ [(name, data)]

/-- The function `buildZip` up to the call of `generateAsync`: the two checks,
then one `zip.file` per captured frame. -/
def buildZip (jszipLoaded : Bool) (captures : List Blob) : Except Thrown Zip :=
  if !jszipLoaded then .error (.object (some "JSZip not loaded"))
  else if captures.length = 0 then .error (.object (some "Nothing to download"))
  else .ok (captures.enum.foldl (fun zip e => zip.file (filename e.1) e.2) [])

/-- The 4-digit decimal numeral of `i`, as `%04d` prints it for `i < 10000`. -/
def fourDigits (i : Nat) : String :=
  String.mk [Nat.digitChar (i / 1000), Nat.digitChar (i / 100 % 10),
    Nat.digitChar (i / 10 % 10), Nat.digitChar (i % 10)]

/-- The entry name that the interface fixes for the `i`-th captured frame, `i`
counted from 1: `capture_%04d.jpg` (four digits up to 9999, all digits beyond). -/
def entryName (i : Nat) : String :=
  "capture_" ++ (if i < 10000 then fourDigits i else Nat.repr i) ++ ".jpg"

/-- Value of a string of decimal digits, leading zeros allowed. -/
def digitsValue (cs : List Char) : Nat :=
  cs.foldl (fun acc c => 10 * acc + (c.toNat - 48)) 0

/-! ## The interval control -/

/-- A JavaScript number as far as the interval needs it. -/
inductive JSNumber
  | nan
  | fin (q : ℚ)
deriving DecidableEq

/-- The text of the interval control, by what `Number(...)` makes of it. -/
inductive InputText
  | empty
  | nonNumeric
  | numeral (q : ℚ)
deriving DecidableEq

/-- The conversion `Number(intervalInput.value)`. -/
def toNumber : InputText → JSNumber
  | .empty => .fin 0
  | .nonNumeric => .nan
  | .numeral q => .fin q

/-- Truthiness of a number: `NaN` and zero are falsy. -/
def JSNumber.truthy : JSNumber → Bool
  | .nan => false
  | .fin q => decide (q ≠ 0)

/-- The operator `x || d` on numbers. -/
def JSNumber.orElse (x d : JSNumber) : JSNumber := if x.truthy then x else d

/-- The function `Math.max` on two numbers. -/
def mathMax : JSNumber → JSNumber → JSNumber
  | .fin a, .fin b => .fin (max a b)
  | _, _ => .nan

/-- What `interval.toString()` leaves in the control. -/
def JSNumber.toInputText : JSNumber → InputText
  | .nan => .nonNumeric
  | .fin q => .numeral q

/-- The expression `Math.max(200, Number(intervalInput.value) || 1000)`. -/
def resolveInterval (v : InputText) : JSNumber :=
  mathMax (.fin 200) ((toNumber v).orElse (.fin 1000))

/-! ## The session -/

/-- Where a suspended `takeFrame` call waits. -/
inductive Phase
  | fetching
  | resizing (blob : Blob)
deriving DecidableEq, Repr

/-- A `takeFrame(save)` call that has passed the `pendingFrame` check and has
not reached its `finally` block. -/
structure FrameRequest where
  save : Bool
  phase : Phase
deriving DecidableEq, Repr

/-- Script variables, the page elements the script writes, the environment,
the suspended asynchronous calls, and a record of downloads, fetches and
exporter calls for observation. -/
structure Session where
  captures : List Blob
  previewUrl : Option Blob
  recordingTimer : Option JSNumber
  isRecording : Bool
  pendingFrame : Bool
  intervalInput : InputText
  statusLabel : String
  captureCount : Nat
  startBtnDisabled : Bool
  stopBtnDisabled : Bool
  jszipLoaded : Bool
  requests : List FrameRequest
  exports : List Zip
  idleTimeouts : Nat
  downloads : List Zip
  fetchesIssued : Nat
  buildZipCalls : Nat
deriving DecidableEq

/-- The function `updatePreview`. -/
def updatePreview (blob : Blob) (s : Session) : Session :=
  { s with previewUrl := some blob }

/-- The function `updateCount`. -/
def updateCount (s : Session) : Session :=
  { s with captureCount := s.captures.length }

/-- The function `setStatus`. -/
def setStatus (text : String) (s : Session) : Session :=
  { s with statusLabel := text }

/-- The function `takeFrame` up to its first `await`: nothing when a request is
pending, else the flag is set and the fetch is issued. -/
def takeFrame (save : Bool) (s : Session) : Session :=
  if s.pendingFrame then s
  else
    { s with
      pendingFrame := true
      requests := s.requests ++ [⟨save, .fetching⟩]
      fetchesIssued := s.fetchesIssued + 1 }

/-- The `catch` and `finally` blocks of `takeFrame`, entered with the outcome of
the `try` block; the call's entry in `requests` has been taken out by then. -/
def takeFrameSettle (s : Session) (body : Except Thrown Session) : Except Thrown Session :=
  let caught : Session :=
    match body with
    | .ok s1 => s1
    | .error _ => setStatus "Camera error" s
  .ok { caught with pendingFrame := false }

/-- The function `takeFrame` resumed when `fetchFrame()` settles for the request
at position `i`. -/
def takeFrameFetched (s : Session) (i : Nat) (r : Except Thrown Blob) :
    Option (Except Thrown Session) :=
  match s.requests.get? i with
  | some ⟨save, .fetching⟩ =>
    match r with
    | .error e => some (takeFrameSettle { s with requests := s.requests.eraseIdx i } (.error e))
    | .ok blob =>
      let s1 := updatePreview blob s
      if save then
        some (.ok { s1 with requests := s1.requests.set i ⟨save, .resizing blob⟩ })
      else
        let s2 := { s1 with requests := s1.requests.eraseIdx i }
        some (takeFrameSettle s2 (.ok s2))
  | _ => none

/-- The function `takeFrame` resumed when `resizeTo96(blob)` settles for the
request at position `i`. -/
def takeFrameResized (s : Session) (i : Nat) (r : Except Thrown Blob) :
    Option (Except Thrown Session) :=
  match s.requests.get? i with
  | some ⟨_, .resizing _⟩ =>
    let s1 := { s with requests := s.requests.eraseIdx i }
    match r with
    | .error e => some (takeFrameSettle s1 (.error e))
    | .ok resized =>
      some (takeFrameSettle s1 (.ok (updateCount { s1 with captures := s1.captures ++ [resized] })))
  | _ => none

/-- The function `startRecording`. -/
def startRecording (s : Session) : Session :=
  if s.isRecording then s
  else
    let s1 := updateCount { s with captures := [] }
    let interval := resolveInterval s1.intervalInput
    let s2 := { s1 with intervalInput := interval.toInputText, isRecording := true }
    let s3 := setStatus "Recording..." s2
    let s4 := { s3 with startBtnDisabled := true, stopBtnDisabled := false }
    let s5 := takeFrame true s4
    { s5 with recordingTimer := some interval }

/-- The status text of the `catch` block of `stopRecording`. -/
def exportFailureText : Thrown → String
  | .object (some m) => if m = "" then "ZIP failed" else m
  | _ => "ZIP failed"

/-- The `try` block of `stopRecording` after `await buildZip()` has settled. -/
def stopRecordingTry (zip : Zip) (r : Except Thrown Unit) (s : Session) :
    Except Thrown Session :=
  match r with
  | .error e => .error e
  | .ok _ => .ok (setStatus "Download ready" { s with downloads := s.downloads ++ [zip] })

/-- The `catch` and `finally` blocks of `stopRecording`. -/
def stopRecordingSettle (s : Session) (body : Except Thrown Session) : Session :=
  let caught : Session :=
    match body with
    | .ok s1 => s1
    | .error e => setStatus (exportFailureText e) s
  let cleared := updateCount { caught with captures := [] }
  { cleared with idleTimeouts := cleared.idleTimeouts + 1 }

/-- The function `stopRecording` up to the point where it waits for
`generateAsync`.  When `buildZip` throws, its promise is already rejected and
the `catch` and `finally` blocks run before any other callback. -/
def stopRecording (s : Session) : Session :=
  if !s.isRecording then s
  else
    let s1 := { s with isRecording := false, startBtnDisabled := false, stopBtnDisabled := true }
    let s2 := if s1.recordingTimer.isSome then { s1 with recordingTimer := none } else s1
    if s2.captures.length = 0 then setStatus "Idle" s2
    else
      let s3 := setStatus "Preparing ZIP..." s2
      let s4 := { s3 with buildZipCalls := s3.buildZipCalls + 1 }
      match buildZip s4.jszipLoaded s4.captures with
      | .error e => stopRecordingSettle s4 (.error e)
      | .ok zip => { s4 with exports := s4.exports ++ [zip] }

/-- The function `stopRecording` resumed when `generateAsync` settles for the
export at position `i`. -/
def stopRecordingZipped (s : Session) (i : Nat) (r : Except Thrown Unit) : Option Session :=
  match s.exports.get? i with
  | some zip =>
    let s1 := { s with exports := s.exports.eraseIdx i }
    some (stopRecordingSettle s1 (stopRecordingTry zip r s1))
  | none => none

/-- The session before the script has run: the markup's initial values. -/
def blankPage (jszipLoaded : Bool) : Session :=
  { captures := []
    previewUrl := none
    recordingTimer := none
    isRecording := false
    pendingFrame := false
    intervalInput := .numeral 1000
    statusLabel := "Idle"
    captureCount := 0
    startBtnDisabled := false
    stopBtnDisabled := true
    jszipLoaded := jszipLoaded
    requests := []
    exports := []
    idleTimeouts := 0
    downloads := []
    fetchesIssued := 0
    buildZipCalls := 0 }

/-- The function `startPreviewLoop`, the last statement of the script: the
preview timer is armed (it stays armed) and one frame is requested. -/
def startPreviewLoop (s : Session) : Session := takeFrame false s

/-- The session once the script has run. -/
def pageLoaded (jszipLoaded : Bool) : Session := startPreviewLoop (blankPage jszipLoaded)

/-- What the browser can run next. -/
inductive Event
  | previewTick
  | recordingTick
  | start
  | stop
  | editInterval (v : InputText)
  | fetchSettled (i : Nat) (r : Except Thrown Blob)
  | resizeSettled (i : Nat) (r : Except Thrown Blob)
  | zipSettled (i : Nat) (r : Except Thrown Unit)
  | idleTimeout

/-- One callback run to completion; `none` when the event cannot occur in `s`
(timer not armed, no such suspended call) or when the callback would let an
exception escape. -/
def step (s : Session) : Event → Option Session
  | .previewTick => some (if !s.isRecording then takeFrame false s else s)
  | .recordingTick => if s.recordingTimer.isSome then some (takeFrame true s) else none
  | .start => some (startRecording s)
  | .stop => some (stopRecording s)
  | .editInterval v => some { s with intervalInput := v }
  | .fetchSettled i r =>
    match takeFrameFetched s i r with
    | some (.ok s1) => some s1
    | _ => none
  | .resizeSettled i r =>
    match takeFrameResized s i r with
    | some (.ok s1) => some s1
    | _ => none
  | .zipSettled i r => stopRecordingZipped s i r
  | .idleTimeout =>
    if s.idleTimeouts = 0 then none
    else some (setStatus "Idle" { s with idleTimeouts := s.idleTimeouts - 1 })

/-- A sequence of callbacks, one after the other. -/
def run (s : Session) : List Event → Option Session
  | [] => some s
  | e :: es =>
    match step s e with
    | some s1 => run s1 es
    | none => none

/-- The sessions the page can be in. -/
def Reachable (s : Session) : Prop :=
  ∃ (jszipLoaded : Bool) (es : List Event), run (pageLoaded jszipLoaded) es = some s

/-- The calls of `takeFrame` that are between setting and clearing `pendingFrame`. -/
def Session.inFlight (s : Session) : Nat := s.requests.length

/-- The requests whose HTTP fetch has not settled. -/
def Session.fetching (s : Session) : Nat :=
  (s.requests.filter (fun q => q.phase = .fetching)).length

/-- The session after a run of events from page load with JSZip present (the
loaded page itself when the run is not possible). -/
def after (es : List Event) : Session := (run (pageLoaded true) es).getD (pageLoaded true)

/-- The in-flight guard: the flag is set exactly while one request is suspended. -/
def Guarded (s : Session) : Prop :=
  s.requests.length = if s.pendingFrame then 1 else 0

/-! ## Rounding error of the grayscale arithmetic -/

theorem findShift_spec (fuel n k j : Nat) (hj : j ≤ fuel) (h : n < 2 ^ (53 + k + j)) :
    n < 2 ^ (53 + findShift fuel n k) ∧ k ≤ findShift fuel n k ∧
      (findShift fuel n k = k ∨ 2 ^ (53 + findShift fuel n k - 1) ≤ n) := by
  induction fuel generalizing k j with
  | zero =>
    have hj0 : j = 0 := by omega
    subst hj0
    simpa [findShift] using h
  | succ f ih =>
    unfold findShift
    split
    · rename_i hlt
      exact ⟨hlt, le_refl _, Or.inl rfl⟩
    · rename_i hge
      cases j with
      | zero => exact absurd h hge
      | succ j1 =>
        have h2 : n < 2 ^ (53 + (k + 1) + j1) := by
          have e : 53 + (k + 1) + j1 = 53 + k + (j1 + 1) := by omega
          rw [e]; exact h
        obtain ⟨a, b, c⟩ := ih (k + 1) j1 (by omega) h2
        refine ⟨a, by omega, Or.inr ?_⟩
        rcases c with c | c
        · rw [c]
          have e : 53 + (k + 1) - 1 = 53 + k := by omega
          rw [e]; omega
        · exact c

theorem findShift_le_11 (n : Nat) (h : n < 2 ^ 64) : findShift 2048 n 0 ≤ 11 := by
  obtain ⟨_, _, c⟩ := findShift_spec 2048 n 0 11 (by decide) h
  rcases c with c | c
  · omega
  · by_contra hgt
    have h12 : 64 ≤ 53 + findShift 2048 n 0 - 1 := by omega
    have := Nat.pow_le_pow_right (show 0 < 2 by decide) h12
    omega

/-- Below `2 ^ 64` (values below 256) one rounding moves a value by at most `2 ^ 10`,
that is by `2 ^ (-46)` unscaled. -/
theorem roundTo53_near (n : Nat) (h : n < 2 ^ 64) :
    roundTo53 n ≤ n + 1024 ∧ n ≤ roundTo53 n + 1024 := by
  have hle := findShift_le_11 n h
  unfold roundTo53
  generalize findShift 2048 n 0 = sh at hle ⊢
  interval_cases sh <;> simp only [] <;> norm_num <;> split <;> omega

theorem luma_near (r g b : Nat) (hr : r < 256) (hg : g < 256) (hb : b < 256) :
    1000 * luma r g b ≤ (299 * r + 587 * g + 114 * b) * 2 ^ 56 + 10000000 ∧
      (299 * r + 587 * g + 114 * b) * 2 ^ 56 ≤ 1000 * luma r g b + 10000000 := by
  unfold luma c299 c587 c114
  have h1 := roundTo53_near (21545220617340452 * r) (by norm_num; omega)
  have h2 := roundTo53_near (42297807700263696 * g) (by norm_num; omega)
  have h3 := roundTo53_near (8214565720323785 * b) (by norm_num; omega)
  generalize roundTo53 (21545220617340452 * r) = p1 at *
  generalize roundTo53 (42297807700263696 * g) = p2 at *
  generalize roundTo53 (8214565720323785 * b) = p3 at *
  have h4 := roundTo53_near (p1 + p2) (by norm_num; omega)
  generalize roundTo53 (p1 + p2) = p4 at *
  have h5 := roundTo53_near (p4 + p3) (by norm_num; omega)
  generalize roundTo53 (p4 + p3) = p5 at *
  norm_num
  omega

theorem mathRound_near (N x : Nat)
    (h1 : 1000 * x ≤ N * 2 ^ 56 + 10000000) (h2 : N * 2 ^ 56 ≤ 1000 * x + 10000000) :
    1000 * mathRound x ≤ N + 500 ∧ N ≤ 1000 * mathRound x + 500 ∧
      (N % 1000 ≠ 500 → mathRound x = (N + 500) / 1000) := by
  unfold mathRound
  norm_num at h1 h2 ⊢
  have hg1 : (x + 36028797018963968) / 72057594037927936 * 72057594037927936
      ≤ x + 36028797018963968 := by omega
  have hg2 : x + 36028797018963968
      < ((x + 36028797018963968) / 72057594037927936 + 1) * 72057594037927936 := by omega
  generalize (x + 36028797018963968) / 72057594037927936 = y at *
  have hA : 1000 * y ≤ N + 500 := by
    by_contra hc
    omega
  have hB : N ≤ 1000 * y + 500 := by
    by_contra hc
    omega
  refine ⟨hA, hB, fun ht => ?_⟩
  have hC : N + 500 ≠ 1000 * y := by omega
  have hD : N ≠ 1000 * y + 500 := by omega
  omega

/-- The stored gray byte against the exact weighted sum `N / 1000`,
`N = 299 r + 587 g + 114 b`: within one half of it, at most 255, and the
round-half-up value whenever `N / 1000` is not exactly halfway. -/
theorem grayOf_near (r g b : Nat) (hr : r < 256) (hg : g < 256) (hb : b < 256) :
    1000 * grayOf r g b ≤ (299 * r + 587 * g + 114 * b) + 500 ∧
      (299 * r + 587 * g + 114 * b) ≤ 1000 * grayOf r g b + 500 ∧
      grayOf r g b ≤ 255 ∧
      ((299 * r + 587 * g + 114 * b) % 1000 ≠ 500 →
        grayOf r g b = ((299 * r + 587 * g + 114 * b) + 500) / 1000) := by
  have h := luma_near r g b hr hg hb
  have hm := mathRound_near (299 * r + 587 * g + 114 * b) (luma r g b) h.1 h.2
  unfold grayOf
  generalize mathRound (luma r g b) = y at *
  generalize hN : 299 * r + 587 * g + 114 * b = N at *
  have hN255 : N ≤ 255000 := by omega
  obtain ⟨a, b1, c⟩ := hm
  have hy : y ≤ 255 := by omega
  rw [Nat.min_eq_left hy]
  exact ⟨a, b1, hy, c⟩

/-- The three literals are the binary64 values nearest to 0.299, 0.587 and 0.114:
each is within half a unit in the last place (4, 8 and 1 at scale `2 ^ 56`). -/
theorem literals_correctly_rounded :
    (1000 * c299 ≤ 299 * 2 ^ 56 + 1000 * 2 ∧ 299 * 2 ^ 56 ≤ 1000 * c299 + 1000 * 2) ∧
    (1000 * c587 ≤ 587 * 2 ^ 56 + 1000 * 4 ∧ 587 * 2 ^ 56 ≤ 1000 * c587 + 1000 * 4) ∧
    (2000 * c114 ≤ 228 * 2 ^ 56 + 1000 ∧ 228 * 2 ^ 56 ≤ 2000 * c114 + 1000) ∧
    c299 % 4 = 0 ∧ c587 % 8 = 0 ∧
    2 ^ 52 ≤ c299 / 4 ∧ c299 / 4 < 2 ^ 53 ∧ 2 ^ 52 ≤ c587 / 8 ∧ c587 / 8 < 2 ^ 53 ∧
    2 ^ 52 ≤ c114 ∧ c114 < 2 ^ 53 := by
  decide

theorem applyGrayscale_length (data : List Nat) :
    (applyGrayscale data).length = data.length := by
  induction data using applyGrayscale.induct <;> simp_all [applyGrayscale]

theorem applyGrayscale_pixel (p : Nat) : ∀ (data : List Nat) (r g b a : Nat),
    data[4 * p]? = some r → data[4 * p + 1]? = some g → data[4 * p + 2]? = some b →
    data[4 * p + 3]? = some a →
    (applyGrayscale data)[4 * p]? = some (grayOf r g b) ∧
    (applyGrayscale data)[4 * p + 1]? = some (grayOf r g b) ∧
    (applyGrayscale data)[4 * p + 2]? = some (grayOf r g b) ∧
    (applyGrayscale data)[4 * p + 3]? = some a := by
  induction p with
  | zero =>
    intro data r g b a h0 h1 h2 h3
    match data, h0, h1, h2, h3 with
    | r1 :: g1 :: b1 :: a1 :: rest, h0, h1, h2, h3 =>
      simp at h0 h1 h2 h3
      subst h0 h1 h2 h3
      simp [applyGrayscale]
  | succ p ih =>
    intro data r g b a h0 h1 h2 h3
    match data, h0, h1, h2, h3 with
    | [], h0, _, _, _ => simp at h0
    | [_], _, h1, _, _ => simp at h1
    | [_, _], _, _, h2, _ => simp at h2
    | [_, _, _], _, _, _, h3 => simp at h3
    | r1 :: g1 :: b1 :: a1 :: rest, h0, h1, h2, h3 =>
      have e0 : 4 * (p + 1) = 4 * p + 1 + 1 + 1 + 1 := by ring
      have e1 : 4 * (p + 1) + 1 = 4 * p + 1 + 1 + 1 + 1 + 1 := by ring
      have e2 : 4 * (p + 1) + 2 = 4 * p + 2 + 1 + 1 + 1 + 1 := by ring
      have e3 : 4 * (p + 1) + 3 = 4 * p + 3 + 1 + 1 + 1 + 1 := by ring
      rw [e0] at h0
      rw [e1] at h1
      rw [e2] at h2
      rw [e3] at h3
      simp only [List.getElem?_cons_succ] at h0 h1 h2 h3
      have := ih rest r g b a h0 h1 h2 h3
      rw [e3, e2, e1, e0]
      simpa [applyGrayscale] using this

/-! ## Decimal numerals and entry names -/

theorem digitChar_value (k : Nat) (h : k < 10) : (Nat.digitChar k).toNat - 48 = k := by
  interval_cases k <;> rfl

theorem toDigitsCore_eq (fuel : Nat) : ∀ (n : Nat) (acc : List Char), n < fuel →
    Nat.toDigitsCore 10 fuel n acc = Nat.toDigits 10 n ++ acc := by
  induction fuel using Nat.strong_induction_on with
  | _ fuel ih =>
    intro n acc hn
    cases fuel with
    | zero => omega
    | succ f =>
      unfold Nat.toDigits
      simp only [Nat.toDigitsCore]
      by_cases h0 : n / 10 = 0
      · simp [h0]
      · simp only [h0, if_false]
        have hlt : n / 10 < n := by omega
        rw [ih f (by omega) (n / 10) _ (by omega), ih n (by omega) (n / 10) _ hlt]
        simp

theorem toDigits_unfold (n : Nat) :
    Nat.toDigits 10 n =
      if n < 10 then [Nat.digitChar n] else Nat.toDigits 10 (n / 10) ++ [Nat.digitChar (n % 10)] := by
  by_cases h : n < 10
  · have h0 : n / 10 = 0 := by omega
    have hm : n % 10 = n := by omega
    simp [Nat.toDigits, Nat.toDigitsCore, h0, hm, h]
  · have h0 : n / 10 ≠ 0 := by omega
    rw [if_neg h]
    conv_lhs => unfold Nat.toDigits
    simp only [Nat.toDigitsCore, h0, if_false]
    exact toDigitsCore_eq n (n / 10) _ (by omega)

theorem digitsValue_append_one (ds : List Char) (c : Char) :
    digitsValue (ds ++ [c]) = 10 * digitsValue ds + (c.toNat - 48) := by
  simp [digitsValue, List.foldl_append]

theorem digitsValue_toDigits (n : Nat) : digitsValue (Nat.toDigits 10 n) = n := by
  induction n using Nat.strong_induction_on with
  | _ n ih =>
    rw [toDigits_unfold]
    by_cases h : n < 10
    · rw [if_pos h]
      simp [digitsValue, digitChar_value n h]
    · rw [if_neg h, digitsValue_append_one, ih (n / 10) (by omega),
        digitChar_value (n % 10) (by omega)]
      omega

theorem digitsValue_zeros (k : Nat) (ds : List Char) :
    digitsValue (List.replicate k '0' ++ ds) = digitsValue ds := by
  induction k with
  | zero => simp
  | succ k ih =>
    have h0 : 10 * 0 + ('0'.toNat - 48) = 0 := by decide
    unfold digitsValue at ih ⊢
    simp only [List.replicate_succ, List.cons_append, List.foldl_cons, h0]
    exact ih

/-- The digits of an entry name spell its one-based index. -/
theorem filename_data (index : Nat) :
    ∃ k, (filename index).data =
      "capture_".data ++ (List.replicate k '0' ++ Nat.toDigits 10 (index + 1)) ++ ".jpg".data := by
  refine ⟨4 - (Nat.repr (index + 1)).length, ?_⟩
  simp [filename, padStart, Nat.repr, String.data_append, List.asString]

theorem filename_injective (i j : Nat) (h : filename i = filename j) : i = j := by
  obtain ⟨k1, h1⟩ := filename_data i
  obtain ⟨k2, h2⟩ := filename_data j
  rw [h, h2] at h1
  have h3 := List.append_cancel_left (List.append_cancel_right h1)
  have h4 := congrArg digitsValue h3
  rw [digitsValue_zeros, digitsValue_zeros, digitsValue_toDigits, digitsValue_toDigits] at h4
  omega

theorem toDigits_lt10 (n : Nat) (h : n < 10) : Nat.toDigits 10 n = [Nat.digitChar n] := by
  rw [toDigits_unfold, if_pos h]

theorem toDigits_ge10 (n : Nat) (h : 10 ≤ n) :
    Nat.toDigits 10 n = Nat.toDigits 10 (n / 10) ++ [Nat.digitChar (n % 10)] := by
  rw [toDigits_unfold, if_neg (by omega)]

theorem toDigits_length_pos (n : Nat) : 1 ≤ (Nat.toDigits 10 n).length := by
  rw [toDigits_unfold]
  split <;> simp

theorem toDigits_length_ge4 (n : Nat) (h : 1000 ≤ n) : 4 ≤ (Nat.toDigits 10 n).length := by
  rw [toDigits_ge10 n (by omega), toDigits_ge10 (n / 10) (by omega),
    toDigits_ge10 (n / 10 / 10) (by omega)]
  have := toDigits_length_pos (n / 10 / 10 / 10)
  simp only [List.length_append, List.length_singleton]
  omega

theorem padStart_repr (i : Nat) :
    padStart (Nat.repr i) 4 '0' = if i < 10000 then fourDigits i else Nat.repr i := by
  have e2 : i / 10 / 10 = i / 100 := by omega
  have e3 : i / 100 / 10 = i / 1000 := by omega
  have z : Nat.digitChar 0 = '0' := rfl
  by_cases h4 : i < 10000
  · rw [if_pos h4]
    apply String.ext
    by_cases h1 : i < 10
    · have a3 : i / 1000 = 0 := by omega
      have a2 : i / 100 % 10 = 0 := by omega
      have a1 : i / 10 % 10 = 0 := by omega
      have a0 : i % 10 = i := by omega
      simp [padStart, Nat.repr, fourDigits, List.asString, String.length, toDigits_lt10 i h1,
        a3, a2, a1, a0, List.replicate, z]
    · by_cases h2 : i < 100
      · have a3 : i / 1000 = 0 := by omega
        have a2 : i / 100 % 10 = 0 := by omega
        have a1 : i / 10 % 10 = i / 10 := by omega
        simp [padStart, Nat.repr, fourDigits, List.asString, String.length,
          toDigits_ge10 i (by omega), toDigits_lt10 (i / 10) (by omega), a3, a2, a1,
          List.replicate, z]
      · by_cases h3 : i < 1000
        · have a3 : i / 1000 = 0 := by omega
          have a2 : i / 100 % 10 = i / 100 := by omega
          simp [padStart, Nat.repr, fourDigits, List.asString, String.length,
            toDigits_ge10 i (by omega), toDigits_ge10 (i / 10) (by omega), e2,
            toDigits_lt10 (i / 100) (by omega), a3, a2, List.replicate, z]
        · simp [padStart, Nat.repr, fourDigits, List.asString, String.length,
            toDigits_ge10 i (by omega), toDigits_ge10 (i / 10) (by omega), e2,
            toDigits_ge10 (i / 100) (by omega), e3, toDigits_lt10 (i / 1000) (by omega),
            List.replicate]
  · rw [if_neg h4]
    have hl := toDigits_length_ge4 i (by omega)
    have hz : 4 - (Nat.repr i).length = 0 := by
      simp only [Nat.repr, List.asString, String.length]
      omega
    apply String.ext
    simp [padStart, hz]

/-- The name the script builds is the name the interface fixes. -/
theorem filename_eq_entryName (index : Nat) : filename index = entryName (index + 1) := by
  unfold filename entryName
  rw [padStart_repr]

/-! ## The archive assembled by `buildZip` -/

theorem file_fresh (zip : Zip) (name : String) (data : Blob)
    (h : ∀ e ∈ zip, e.1 ≠ name) : zip.file name data = zip ++ [(name, data)] := by
  unfold Zip.file
  have hany : zip.any (fun e => e.1 == name) = false := by
    rw [List.any_eq_false]
    intro e he
    simpa using h e he
  simp [hany]

theorem foldl_file_enumFrom (caps : List Blob) : ∀ (k : Nat) (acc : Zip),
    (∀ e ∈ acc, ∃ m, m < k ∧ e.1 = filename m) →
    (List.enumFrom k caps).foldl (fun zip e => zip.file (filename e.1) e.2) acc
      = acc ++ (List.enumFrom k caps).map (fun e => (filename e.1, e.2)) := by
  induction caps with
  | nil => intro k acc _; simp
  | cons c cs ih =>
    intro k acc hacc
    have hfresh : ∀ e ∈ acc, e.1 ≠ filename k := by
      intro e he heq
      obtain ⟨m, hm, hname⟩ := hacc e he
      have := filename_injective m k (hname.symm.trans heq)
      omega
    simp only [List.enumFrom_cons, List.foldl_cons, List.map_cons]
    rw [file_fresh acc (filename k) c hfresh, ih (k + 1)]
    · simp
    · intro e he
      rcases List.mem_append.mp he with h1 | h1
      · obtain ⟨m, hm, hname⟩ := hacc e h1
        exact ⟨m, by omega, hname⟩
      · simp only [List.mem_singleton] at h1
        exact ⟨k, by omega, by rw [h1]⟩

/-- With JSZip present and a non-empty buffer, `buildZip` hands `generateAsync` one
entry per frame, in buffer order, each under the name the script builds. -/
theorem buildZip_ok (captures : List Blob) (h : captures ≠ []) :
    buildZip true captures = .ok (captures.enum.map (fun e => (filename e.1, e.2))) := by
  have hlen : captures.length ≠ 0 := by
    intro h0
    exact h (List.length_eq_zero.mp h0)
  unfold buildZip
  simp only [Bool.not_true, Bool.false_eq_true, if_false, hlen]
  rw [List.enum, foldl_file_enumFrom captures 0 [] (by simp)]
  simp

/-! ## The in-flight guard -/

theorem takeFrame_guarded (save : Bool) (s : Session) (h : Guarded s) :
    Guarded (takeFrame save s) := by
  unfold Guarded at h ⊢
  unfold takeFrame
  by_cases hp : s.pendingFrame = true
  · simpa [hp] using h
  · simp only [hp, if_false] at h ⊢
    simp [h]

theorem stopRecordingSettle_requests (s : Session) (body : Except Thrown Session)
    (hb : ∀ s1, body = .ok s1 → s1.requests = s.requests ∧ s1.pendingFrame = s.pendingFrame) :
    (stopRecordingSettle s body).requests = s.requests ∧
      (stopRecordingSettle s body).pendingFrame = s.pendingFrame := by
  unfold stopRecordingSettle
  cases body with
  | error e => simp [setStatus, updateCount]
  | ok s1 => simpa [setStatus, updateCount] using hb s1 rfl

theorem stopRecording_requests (s : Session) :
    (stopRecording s).requests = s.requests ∧
      (stopRecording s).pendingFrame = s.pendingFrame := by
  unfold stopRecording stopRecordingSettle setStatus updateCount
  cases hb : buildZip s.jszipLoaded s.captures <;>
    by_cases h1 : s.isRecording = true <;>
    by_cases h2 : s.recordingTimer.isSome = true <;>
    by_cases h3 : s.captures.length = 0 <;>
    simp [h1, h2, h3, hb]

theorem guarded_get (s : Session) (i : Nat) (q : FrameRequest) (h : Guarded s)
    (hq : s.requests.get? i = some q) :
    s.pendingFrame = true ∧ s.requests = [q] ∧ i = 0 := by
  unfold Guarded at h
  have hlt : i < s.requests.length := by
    rw [List.get?_eq_some] at hq
    exact hq.1
  by_cases hp : s.pendingFrame = true
  · simp only [hp, if_true] at h
    have hi : i = 0 := by omega
    subst hi
    refine ⟨hp, ?_, rfl⟩
    match hreq : s.requests, h, hq with
    | [q1], _, hq =>
      simp only [List.get?_cons_zero, Option.some.injEq] at hq
      rw [hq]
  · have hf : s.pendingFrame = false := by simpa using hp
    rw [hf] at h
    simp only [Bool.false_eq_true, if_false] at h
    omega

theorem takeFrameSettle_ok (s : Session) (body : Except Thrown Session) :
    ∃ s1, takeFrameSettle s body = .ok s1 ∧ s1.pendingFrame = false ∧
      (∀ e, body = .error e → s1 = { setStatus "Camera error" s with pendingFrame := false }) ∧
      (∀ s0, body = .ok s0 → s1 = { s0 with pendingFrame := false }) := by
  unfold takeFrameSettle
  cases body <;> simp

theorem takeFrameFetched_guarded (s s1 : Session) (i : Nat) (r : Except Thrown Blob)
    (h : Guarded s) (hs : takeFrameFetched s i r = some (.ok s1)) : Guarded s1 := by
  unfold takeFrameFetched at hs
  split at hs
  · rename_i save hget
    obtain ⟨hp, hreq, hi⟩ := guarded_get s i _ h hget
    subst hi
    cases r with
    | error e =>
      simp only [takeFrameSettle, setStatus, Option.some.injEq, Except.ok.injEq] at hs
      subst hs
      simp [Guarded, hreq]
    | ok blob =>
      cases save with
      | true =>
        simp only [updatePreview, if_true, Option.some.injEq, Except.ok.injEq] at hs
        subst hs
        simp [Guarded, hreq, hp]
      | false =>
        simp only [updatePreview, takeFrameSettle, Bool.false_eq_true, if_false,
          Option.some.injEq, Except.ok.injEq] at hs
        subst hs
        simp [Guarded, hreq]
  · simp at hs

theorem takeFrameResized_guarded (s s1 : Session) (i : Nat) (r : Except Thrown Blob)
    (h : Guarded s) (hs : takeFrameResized s i r = some (.ok s1)) : Guarded s1 := by
  unfold takeFrameResized at hs
  split at hs
  · rename_i save blob hget
    obtain ⟨hp, hreq, hi⟩ := guarded_get s i _ h hget
    subst hi
    cases r with
    | error e =>
      simp only [takeFrameSettle, setStatus, Option.some.injEq, Except.ok.injEq] at hs
      subst hs
      simp [Guarded, hreq]
    | ok resized =>
      simp only [takeFrameSettle, updateCount, Option.some.injEq, Except.ok.injEq] at hs
      subst hs
      simp [Guarded, hreq]
  · simp at hs

theorem stopRecordingZipped_requests (s s1 : Session) (i : Nat) (r : Except Thrown Unit)
    (hs : stopRecordingZipped s i r = some s1) :
    s1.requests = s.requests ∧ s1.pendingFrame = s.pendingFrame := by
  unfold stopRecordingZipped at hs
  split at hs
  · simp only [Option.some.injEq] at hs
    subst hs
    cases r <;> simp [stopRecordingSettle, stopRecordingTry, setStatus, updateCount]
  · simp at hs

theorem step_guarded (s s1 : Session) (e : Event) (h : Guarded s) (hs : step s e = some s1) :
    Guarded s1 := by
  cases e with
  | previewTick =>
    simp only [step, Option.some.injEq] at hs
    subst hs
    split
    · exact takeFrame_guarded _ _ h
    · exact h
  | recordingTick =>
    simp only [step] at hs
    split at hs
    · simp only [Option.some.injEq] at hs
      subst hs
      exact takeFrame_guarded _ _ h
    · simp at hs
  | start =>
    simp only [step, Option.some.injEq] at hs
    subst hs
    unfold startRecording
    split
    · exact h
    · have := takeFrame_guarded true
        { setStatus "Recording..."
            { updateCount { s with captures := [] } with
              intervalInput := (resolveInterval s.intervalInput).toInputText
              isRecording := true } with
          startBtnDisabled := true, stopBtnDisabled := false } (by simpa [Guarded, setStatus, updateCount] using h)
      simpa [Guarded, updateCount] using this
  | stop =>
    simp only [step, Option.some.injEq] at hs
    subst hs
    have := stopRecording_requests s
    unfold Guarded at h ⊢
    rw [this.1, this.2]
    exact h
  | editInterval v =>
    simp only [step, Option.some.injEq] at hs
    subst hs
    exact h
  | fetchSettled i r =>
    simp only [step] at hs
    split at hs
    · rename_i s2 heq
      simp only [Option.some.injEq] at hs
      subst hs
      exact takeFrameFetched_guarded s _ i r h heq
    · simp at hs
  | resizeSettled i r =>
    simp only [step] at hs
    split at hs
    · rename_i s2 heq
      simp only [Option.some.injEq] at hs
      subst hs
      exact takeFrameResized_guarded s _ i r h heq
    · simp at hs
  | zipSettled i r =>
    simp only [step] at hs
    have := stopRecordingZipped_requests s s1 i r hs
    unfold Guarded at h ⊢
    rw [this.1, this.2]
    exact h
  | idleTimeout =>
    simp only [step] at hs
    split at hs
    · simp at hs
    · simp only [Option.some.injEq] at hs
      subst hs
      exact h

theorem run_guarded (es : List Event) : ∀ (s s1 : Session), Guarded s →
    run s es = some s1 → Guarded s1 := by
  induction es with
  | nil =>
    intro s s1 h hs
    simp only [run, Option.some.injEq] at hs
    subst hs
    exact h
  | cons e es ih =>
    intro s s1 h hs
    simp only [run] at hs
    split at hs
    · rename_i s2 hstep
      exact ih s2 s1 (step_guarded s s2 e h hstep) hs
    · simp at hs

theorem pageLoaded_guarded (jszipLoaded : Bool) : Guarded (pageLoaded jszipLoaded) := by
  cases jszipLoaded <;> simp [Guarded, pageLoaded, startPreviewLoop, takeFrame, blankPage]

theorem reachable_guarded (s : Session) (h : Reachable s) : Guarded s := by
  obtain ⟨j, es, hrun⟩ := h
  exact run_guarded es _ s (pageLoaded_guarded j) hrun

/-- C1: in every session the page can reach, no frame request is suspended while
`pendingFrame` is false and exactly one is while it is true, so at most one
HTTP fetch is outstanding; `takeFrame` does nothing while the flag is set, and
otherwise sets the flag and issues one fetch. -/
theorem at_most_one_request_in_flight (s : Session) (h : Reachable s) :
    (s.pendingFrame = false → s.inFlight = 0) ∧
    (s.pendingFrame = true → s.inFlight = 1) ∧
    s.inFlight ≤ 1 ∧ s.fetching ≤ 1 ∧
    (∀ save : Bool,
      (s.pendingFrame = true → takeFrame save s = s) ∧
      (s.pendingFrame = false →
        (takeFrame save s).pendingFrame = true ∧ (takeFrame save s).inFlight = 1 ∧
        (takeFrame save s).fetchesIssued = s.fetchesIssued + 1)) := by
  have hg := reachable_guarded s h
  unfold Guarded at hg
  have hfl : s.fetching ≤ s.requests.length := List.length_filter_le _ _
  unfold Session.inFlight
  refine ⟨?_, ?_, ?_, ?_, ?_⟩
  · intro hp
    simpa [hp] using hg
  · intro hp
    simpa [hp] using hg
  · split at hg <;> omega
  · split at hg <;> omega
  · intro save
    constructor
    · intro hp
      simp [takeFrame, hp]
    · intro hp
      rw [hp] at hg
      simp only [Bool.false_eq_true, if_false] at hg
      simp [takeFrame, hp, hg]

/-- C1 at the session right after a first `start()`: one request is in flight
there and the recording timer's first tick issues no second one. -/
theorem at_most_one_request_in_flight_witness :
    Reachable (after [.start, .previewTick, .recordingTick]) ∧
    (after [.start, .previewTick, .recordingTick]).inFlight = 1 ∧
    (after [.start, .previewTick, .recordingTick]).fetchesIssued = 1 :=
  ⟨⟨true, [.start, .previewTick, .recordingTick], by decide⟩,
   (at_most_one_request_in_flight _
      ⟨true, [.start, .previewTick, .recordingTick], by decide⟩).2.1 (by decide),
   by decide⟩

/-- C10: `start()` on a session that is already Recording changes nothing. -/
theorem start_while_recording_noop (s : Session) (h : s.isRecording = true) :
    startRecording s = s ∧ step s .start = some s := by
  simp [step, startRecording, h]

/-- C10 at a session that is recording with one frame captured. -/
theorem start_while_recording_noop_witness :
    (after [.fetchSettled 0 (.ok 1), .start, .fetchSettled 0 (.ok 2),
      .resizeSettled 0 (.ok 3)]).captures = [3] ∧
    startRecording (after [.fetchSettled 0 (.ok 1), .start, .fetchSettled 0 (.ok 2),
      .resizeSettled 0 (.ok 3)])
    = after [.fetchSettled 0 (.ok 1), .start, .fetchSettled 0 (.ok 2),
      .resizeSettled 0 (.ok 3)] :=
  ⟨by decide, (start_while_recording_noop _ (by decide)).1⟩

/-- C9: `stop()` calls the archive exporter exactly when the session is Recording
with a non-empty buffer.  While not Recording it changes nothing; while Recording
with an empty buffer it disarms the recording timer and goes to Idle with status
"Idle", leaving the exporter uncalled and no export pending. -/
theorem stop_exports_iff_recording_nonempty (s : Session) :
    (s.isRecording = false → stopRecording s = s) ∧
    (s.isRecording = true → s.captures = [] →
      stopRecording s =
        { s with isRecording := false, startBtnDisabled := false, stopBtnDisabled := true,
                 recordingTimer := none, statusLabel := "Idle" }) ∧
    ((stopRecording s).buildZipCalls = s.buildZipCalls + 1 ↔
      (s.isRecording = true ∧ s.captures ≠ [])) ∧
    (¬ (s.isRecording = true ∧ s.captures ≠ []) →
      (stopRecording s).buildZipCalls = s.buildZipCalls ∧
      (stopRecording s).exports = s.exports ∧ (stopRecording s).downloads = s.downloads) := by
  unfold stopRecording stopRecordingSettle setStatus updateCount
  cases hb : buildZip s.jszipLoaded s.captures <;>
    by_cases h1 : s.isRecording = true <;>
    by_cases h2 : s.recordingTimer.isSome = true <;>
    by_cases h3 : s.captures = [] <;>
    simp_all

/-- C9 at three sessions: not Recording, Recording with an empty buffer, and
Recording with one frame. -/
theorem stop_exports_iff_recording_nonempty_witness :
    stopRecording (after [.fetchSettled 0 (.ok 1)]) = after [.fetchSettled 0 (.ok 1)] ∧
    (stopRecording (after [.fetchSettled 0 (.ok 1), .start])).statusLabel = "Idle" ∧
    (stopRecording (after [.fetchSettled 0 (.ok 1), .start])).buildZipCalls = 0 ∧
    (stopRecording (after [.fetchSettled 0 (.ok 1), .start, .fetchSettled 0 (.ok 2),
      .resizeSettled 0 (.ok 3)])).buildZipCalls = 1 :=
  ⟨(stop_exports_iff_recording_nonempty (after [.fetchSettled 0 (.ok 1)])).1 (by decide),
   by decide, by decide, by decide⟩

/-- C3, as the script has it: `start()` from a non-Recording session takes 1000
for an empty, non-numeric or zero control, 200 for any other number below 200,
and the number itself from 200 on; the recording timer is armed with that
interval and the control is rewritten to it. -/
theorem start_resolves_interval (s : Session) (h : s.isRecording = false) :
    ((s.intervalInput = .empty ∨ s.intervalInput = .nonNumeric ∨
        s.intervalInput = .numeral 0) →
      (startRecording s).recordingTimer = some (.fin 1000) ∧
      (startRecording s).intervalInput = .numeral 1000) ∧
    (∀ q : ℚ, s.intervalInput = .numeral q → q ≠ 0 → q < 200 →
      (startRecording s).recordingTimer = some (.fin 200) ∧
      (startRecording s).intervalInput = .numeral 200) ∧
    (∀ q : ℚ, s.intervalInput = .numeral q → 200 ≤ q →
      (startRecording s).recordingTimer = some (.fin q) ∧
      (startRecording s).intervalInput = .numeral q) := by
  have hs : (startRecording s).recordingTimer = some (resolveInterval s.intervalInput) ∧
      (startRecording s).intervalInput = (resolveInterval s.intervalInput).toInputText := by
    unfold startRecording takeFrame setStatus updateCount
    by_cases hp : s.pendingFrame = true <;> simp [h, hp]
  rw [hs.1, hs.2]
  refine ⟨?_, ?_, ?_⟩
  · rintro (hv | hv | hv) <;> rw [hv] <;>
      norm_num [resolveInterval, toNumber, JSNumber.orElse, JSNumber.truthy, mathMax,
        JSNumber.toInputText]
  · intro q hv h0 hlt
    rw [hv]
    simp [resolveInterval, toNumber, JSNumber.orElse, JSNumber.truthy, mathMax,
      JSNumber.toInputText, h0, max_eq_left (le_of_lt hlt)]
  · intro q hv hge
    have h0 : q ≠ 0 := by
      intro hq
      rw [hq] at hge
      norm_num at hge
    rw [hv]
    simp [resolveInterval, toNumber, JSNumber.orElse, JSNumber.truthy, mathMax,
      JSNumber.toInputText, h0, max_eq_right hge]

/-- C3 at a control reading 50: the interval and the control become 200. -/
theorem start_resolves_interval_witness :
    (after [.editInterval (.numeral 50)]).isRecording = false ∧
    (startRecording (after [.editInterval (.numeral 50)])).recordingTimer = some (.fin 200) ∧
    (startRecording (after [.editInterval (.numeral 50)])).intervalInput = .numeral 200 :=
  ⟨by decide,
   (start_resolves_interval (after [.editInterval (.numeral 50)]) (by decide)).2.1 50
     (by decide) (by decide) (by decide)⟩

/-- C3 fails for an empty control: `start()` arms the timer with 1000, not with
the floor 200, and writes 1000 into the control. -/
theorem empty_interval_gives_1000 :
    (after [.editInterval .empty]).isRecording = false ∧
    (after [.editInterval .empty, .start]).recordingTimer = some (.fin 1000) ∧
    (after [.editInterval .empty, .start]).intervalInput = .numeral 1000 ∧
    (after [.editInterval .empty, .start]).recordingTimer ≠ some (.fin 200) := by
  decide

/-- C2: for a non-empty buffer of `n` frames and JSZip present, `buildZip` gives
`generateAsync` exactly `n` entries; entry `i` (from 1) holds the `i`-th buffered
frame under the name `capture_%04d.jpg` of `i`, and distinct indices have
distinct names. -/
theorem buildZip_entries_in_capture_order (captures : List Blob) (h : captures ≠ []) :
    ∃ zip : Zip, buildZip true captures = .ok zip ∧
      zip.length = captures.length ∧
      (∀ i : Nat, i < captures.length →
        zip[i]?.map (fun e => e.1) = some (entryName (i + 1)) ∧
        zip[i]?.map (fun e => e.2) = captures[i]?) ∧
      (∀ i j : Nat, entryName (i + 1) = entryName (j + 1) → i = j) := by
  refine ⟨_, buildZip_ok captures h, by simp, ?_, ?_⟩
  · intro i hi
    simp [List.enum, List.getElem?_enumFrom, filename_eq_entryName, hi]
  · intro i j hij
    rw [← filename_eq_entryName, ← filename_eq_entryName] at hij
    exact filename_injective i j hij

/-- C2 at a buffer of three frames: the entries are `capture_0001.jpg`,
`capture_0002.jpg`, `capture_0003.jpg`, in capture order. -/
theorem buildZip_entries_in_capture_order_witness :
    buildZip true [7, 8, 9] =
      .ok [("capture_0001.jpg", 7), ("capture_0002.jpg", 8), ("capture_0003.jpg", 9)] ∧
    ∃ zip : Zip, buildZip true [7, 8, 9] = .ok zip ∧
      zip.length = 3 ∧
      (∀ i : Nat, i < 3 →
        zip[i]?.map (fun e => e.1) = some (entryName (i + 1)) ∧
        zip[i]?.map (fun e => e.2) = ([7, 8, 9] : List Blob)[i]?) ∧
      (∀ i j : Nat, entryName (i + 1) = entryName (j + 1) → i = j) :=
  ⟨by decide, buildZip_entries_in_capture_order [7, 8, 9] (by decide)⟩

/-- C4, as the script has it: on canvas bytes `applyGrayscale` keeps the length;
in every pixel the three colour bytes become one value `gray ≤ 255` within one
half of `(299 R + 587 G + 114 B) / 1000`, equal to its round-half-up whenever that
quotient is not exactly halfway between two integers; alpha is unchanged. -/
theorem applyGrayscale_nearest_luma (data : List Nat) (hbytes : ∀ x ∈ data, x < 256) :
    (applyGrayscale data).length = data.length ∧
    ∀ p : Nat, 4 * p + 3 < data.length →
      ∃ r g b a gray : Nat,
        data[4 * p]? = some r ∧ data[4 * p + 1]? = some g ∧
        data[4 * p + 2]? = some b ∧ data[4 * p + 3]? = some a ∧
        (applyGrayscale data)[4 * p]? = some gray ∧
        (applyGrayscale data)[4 * p + 1]? = some gray ∧
        (applyGrayscale data)[4 * p + 2]? = some gray ∧
        (applyGrayscale data)[4 * p + 3]? = some a ∧
        gray ≤ 255 ∧
        1000 * gray ≤ 299 * r + 587 * g + 114 * b + 500 ∧
        299 * r + 587 * g + 114 * b ≤ 1000 * gray + 500 ∧
        ((299 * r + 587 * g + 114 * b) % 1000 ≠ 500 →
          gray = (299 * r + 587 * g + 114 * b + 500) / 1000) := by
  refine ⟨applyGrayscale_length data, ?_⟩
  intro p hp
  have h0 : 4 * p < data.length := by omega
  have h1 : 4 * p + 1 < data.length := by omega
  have h2 : 4 * p + 2 < data.length := by omega
  have e0 := List.getElem?_eq_getElem h0
  have e1 := List.getElem?_eq_getElem h1
  have e2 := List.getElem?_eq_getElem h2
  have e3 := List.getElem?_eq_getElem hp
  have b0 := hbytes _ (List.getElem_mem h0)
  have b1 := hbytes _ (List.getElem_mem h1)
  have b2 := hbytes _ (List.getElem_mem h2)
  obtain ⟨o0, o1, o2, o3⟩ := applyGrayscale_pixel p data _ _ _ _ e0 e1 e2 e3
  obtain ⟨n1, n2, n3, n4⟩ := grayOf_near _ _ _ b0 b1 b2
  exact ⟨_, _, _, _, _, e0, e1, e2, e3, o0, o1, o2, o3, n3, n1, n2, n4⟩

/-- C4 at a two-pixel buffer. -/
theorem applyGrayscale_nearest_luma_witness :
    (∀ x ∈ [200, 100, 50, 255, 0, 36, 12, 7], x < 256) ∧
    applyGrayscale [200, 100, 50, 255, 0, 36, 12, 7] = [124, 124, 124, 255, 22, 22, 22, 7] ∧
    (applyGrayscale [200, 100, 50, 255, 0, 36, 12, 7]).length = 8 :=
  ⟨by decide, by decide,
   (applyGrayscale_nearest_luma [200, 100, 50, 255, 0, 36, 12, 7] (by decide)).1⟩

/-- C4 fails at the pixel (0, 36, 12): the weighted sum is exactly 22.5, whose
round-half-up is 23, and the script stores 22 (its binary64 sum is just below 22.5). -/
theorem grayscale_tie_rounds_down :
    applyGrayscale [0, 36, 12, 255] = [22, 22, 22, 255] ∧
    299 * 0 + 587 * 36 + 114 * 12 = 22500 ∧
    (299 * 0 + 587 * 36 + 114 * 12 + 500) / 1000 = 23 ∧
    luma 0 36 12 < 22 * 2 ^ 56 + 2 ^ 55 := by
  decide

/-- C7: when the fetch or the transform of a recording-path request fails, the
resumed `takeFrame` settles without throwing, appends nothing, leaves `isRecording`
as it is, sets the status to "Camera error" and clears `pendingFrame`, after
which `takeFrame` issues a request again. -/
theorem failed_tick_is_dropped (s : Session) (i : Nat) (e : Thrown) :
    (s.requests.get? i = some ⟨true, .fetching⟩ →
      ∃ s1, takeFrameFetched s i (.error e) = some (.ok s1) ∧
        step s (.fetchSettled i (.error e)) = some s1 ∧
        s1.captures = s.captures ∧ s1.isRecording = s.isRecording ∧
        s1.statusLabel = "Camera error" ∧ s1.pendingFrame = false ∧
        (takeFrame true s1).requests = s1.requests ++ [⟨true, .fetching⟩]) ∧
    (∀ blob, s.requests.get? i = some ⟨true, .resizing blob⟩ →
      ∃ s1, takeFrameResized s i (.error e) = some (.ok s1) ∧
        step s (.resizeSettled i (.error e)) = some s1 ∧
        s1.captures = s.captures ∧ s1.isRecording = s.isRecording ∧
        s1.statusLabel = "Camera error" ∧ s1.pendingFrame = false ∧
        (takeFrame true s1).requests = s1.requests ++ [⟨true, .fetching⟩]) := by
  constructor
  · intro hq
    refine ⟨{ setStatus "Camera error" { s with requests := s.requests.eraseIdx i } with
              pendingFrame := false }, ?_, ?_, rfl, rfl, rfl, rfl, ?_⟩
    · simp only [takeFrameFetched, hq, takeFrameSettle]
    · simp only [step, takeFrameFetched, hq, takeFrameSettle]
    · simp [takeFrame, setStatus]
  · intro blob hq
    refine ⟨{ setStatus "Camera error" { s with requests := s.requests.eraseIdx i } with
              pendingFrame := false }, ?_, ?_, rfl, rfl, rfl, rfl, ?_⟩
    · simp only [takeFrameResized, hq, takeFrameSettle]
    · simp only [step, takeFrameResized, hq, takeFrameSettle]
    · simp [takeFrame, setStatus]

/-- C7 in a recording of three ticks whose second fetch fails: the buffer ends
with the frames of ticks 1 and 3, in that order, and the session is Recording
after every event from `start()` on. -/
theorem failed_tick_is_dropped_witness :
    (after [.fetchSettled 0 (.ok 10), .start, .fetchSettled 0 (.ok 11),
      .resizeSettled 0 (.ok 21), .recordingTick, .fetchSettled 0 (.error .falsy),
      .recordingTick, .fetchSettled 0 (.ok 13), .resizeSettled 0 (.ok 23)]).captures
      = [21, 23] ∧
    (∀ k ∈ [2, 3, 4, 5, 6, 7, 8, 9],
      (run (pageLoaded true) (List.take k [.fetchSettled 0 (.ok 10), .start,
        .fetchSettled 0 (.ok 11), .resizeSettled 0 (.ok 21), .recordingTick,
        .fetchSettled 0 (.error .falsy), .recordingTick, .fetchSettled 0 (.ok 13),
        .resizeSettled 0 (.ok 23)])).map (fun s => s.isRecording) = some true) ∧
    (after [.fetchSettled 0 (.ok 10), .start, .fetchSettled 0 (.ok 11),
      .resizeSettled 0 (.ok 21), .recordingTick]).requests.get? 0
      = some ⟨true, .fetching⟩ ∧
    ∃ s1, step (after [.fetchSettled 0 (.ok 10), .start, .fetchSettled 0 (.ok 11),
        .resizeSettled 0 (.ok 21), .recordingTick]) (.fetchSettled 0 (.error .falsy))
        = some s1 ∧
      s1.captures = [21] ∧ s1.isRecording = true ∧ s1.statusLabel = "Camera error" ∧
      s1.pendingFrame = false := by
  refine ⟨by decide, by decide, by decide, ?_⟩
  obtain ⟨s1, _, h2, h3, h4, h5, h6, _⟩ :=
    (failed_tick_is_dropped (after [.fetchSettled 0 (.ok 10), .start, .fetchSettled 0 (.ok 11),
      .resizeSettled 0 (.ok 21), .recordingTick]) 0 .falsy).1 (by decide)
  exact ⟨s1, h2, h3.trans (by decide), h4.trans (by decide), h5, h6⟩

/-- C5, as the script has it: a recording-path request that is still in flight
when the session is no longer Recording is carried through; when its fetch and
its transform succeed, the frame is appended at the end of the buffer.  Pending
exports and past downloads are left as they are. -/
theorem late_frame_is_appended (s : Session) (i : Nat) (blob resized : Blob)
    (hstop : s.isRecording = false) (hq : s.requests.get? i = some ⟨true, .fetching⟩) :
    ∃ s1 s2, step s (.fetchSettled i (.ok blob)) = some s1 ∧
      s1.captures = s.captures ∧ s1.requests.get? i = some ⟨true, .resizing blob⟩ ∧
      step s1 (.resizeSettled i (.ok resized)) = some s2 ∧
      s2.captures = s.captures ++ [resized] ∧
      s2.captureCount = s.captures.length + 1 ∧
      s2.isRecording = false ∧ s2.pendingFrame = false ∧
      s2.exports = s.exports ∧ s2.downloads = s.downloads := by
  have hlt : i < s.requests.length := by
    rw [List.get?_eq_some] at hq
    exact hq.1
  have hset : (s.requests.set i ⟨true, .resizing blob⟩).get? i
      = some ⟨true, .resizing blob⟩ := by
    simp [List.getElem?_set, hlt]
  have h1 : ∃ s1, step s (.fetchSettled i (.ok blob)) = some s1 ∧
      s1.captures = s.captures ∧ s1.requests.get? i = some ⟨true, .resizing blob⟩ ∧
      s1.isRecording = false ∧ s1.exports = s.exports ∧ s1.downloads = s.downloads := by
    simp only [step, takeFrameFetched, hq, updatePreview, if_true]
    exact ⟨_, rfl, rfl, hset, hstop, rfl, rfl⟩
  obtain ⟨s1, hs1, hc1, hq1, hr1, he1, hd1⟩ := h1
  have h2 : ∃ s2, step s1 (.resizeSettled i (.ok resized)) = some s2 ∧
      s2.captures = s1.captures ++ [resized] ∧
      s2.captureCount = s1.captures.length + 1 ∧
      s2.isRecording = s1.isRecording ∧ s2.pendingFrame = false ∧
      s2.exports = s1.exports ∧ s2.downloads = s1.downloads := by
    simp only [step, takeFrameResized, hq1, takeFrameSettle, updateCount]
    exact ⟨_, rfl, rfl, by simp, rfl, rfl, rfl, rfl⟩
  obtain ⟨s2, hs2, hc2, hn2, hr2, hp2, he2, hd2⟩ := h2
  refine ⟨s1, s2, hs1, hc1, hq1, hs2, ?_, ?_, ?_, hp2, ?_, ?_⟩
  · rw [hc2, hc1]
  · rw [hn2, hc1]
  · rw [hr2, hr1]
  · rw [he2, he1]
  · rw [hd2, hd1]

/-- C5 amended, at the session of a `start()` followed at once by `stop()`. -/
theorem late_frame_is_appended_witness :
    (after [.fetchSettled 0 (.ok 1), .start, .stop]).isRecording = false ∧
    (after [.fetchSettled 0 (.ok 1), .start, .stop]).requests.get? 0
      = some ⟨true, .fetching⟩ ∧
    ∃ s1 s2, step (after [.fetchSettled 0 (.ok 1), .start, .stop]) (.fetchSettled 0 (.ok 2))
        = some s1 ∧
      step s1 (.resizeSettled 0 (.ok 3)) = some s2 ∧ s2.captures = [3] := by
  refine ⟨by decide, by decide, ?_⟩
  obtain ⟨s1, s2, h1, _, _, h4, h5, _⟩ :=
    late_frame_is_appended (after [.fetchSettled 0 (.ok 1), .start, .stop]) 0 2 3
      (by decide) (by decide)
  exact ⟨s1, s2, h1, h4, h5.trans (by decide)⟩

/-- C5 fails on this run: `start()` dispatches a recording-path request, `stop()`
runs while it is in flight (empty buffer, so the session is Idle), then the
fetch and the transform succeed and the frame lands in the buffer. -/
theorem frame_appended_after_stop :
    (run (pageLoaded true) [.fetchSettled 0 (.ok 1), .start, .stop]).map
        (fun s => (s.isRecording, s.statusLabel, s.captures, s.requests))
      = some (false, "Idle", [], [⟨true, .fetching⟩]) ∧
    (run (pageLoaded true) [.fetchSettled 0 (.ok 1), .start, .stop,
        .fetchSettled 0 (.ok 2), .resizeSettled 0 (.ok 3)]).map
        (fun s => (s.isRecording, s.statusLabel, s.captures, s.captureCount))
      = some (false, "Idle", [3], 1) := by
  decide

/-- C6 fails on this run (after each `stop()` the start button is enabled): a
first session captures one frame and is stopped; while its archive is being
generated a second session is started and captures a frame; the completion of
the first export then empties the buffer of the second session, which is still
Recording, and the delayed status write shows "Idle" for it. -/
theorem export_completion_clears_new_session :
    (run (pageLoaded true) [.fetchSettled 0 (.ok 1), .start, .fetchSettled 0 (.ok 2),
        .resizeSettled 0 (.ok 3), .stop]).map
        (fun s => (s.isRecording, s.startBtnDisabled, s.captures))
      = some (false, false, [3]) ∧
    (run (pageLoaded true) [.fetchSettled 0 (.ok 1), .start, .fetchSettled 0 (.ok 2),
        .resizeSettled 0 (.ok 3), .stop]).map (fun s => s.exports)
      = some [[("capture_0001.jpg", 3)]] ∧
    (run (pageLoaded true) [.fetchSettled 0 (.ok 1), .start, .fetchSettled 0 (.ok 2),
        .resizeSettled 0 (.ok 3), .stop, .start, .fetchSettled 0 (.ok 4),
        .resizeSettled 0 (.ok 5)]).map
        (fun s => (s.isRecording, s.captures, s.captureCount))
      = some (true, [5], 1) ∧
    (run (pageLoaded true) [.fetchSettled 0 (.ok 1), .start, .fetchSettled 0 (.ok 2),
        .resizeSettled 0 (.ok 3), .stop, .start, .fetchSettled 0 (.ok 4),
        .resizeSettled 0 (.ok 5), .zipSettled 0 (.ok ())]).map
        (fun s => (s.isRecording, s.captures, s.captureCount))
      = some (true, [], 0) ∧
    (run (pageLoaded true) [.fetchSettled 0 (.ok 1), .start, .fetchSettled 0 (.ok 2),
        .resizeSettled 0 (.ok 3), .stop, .start, .fetchSettled 0 (.ok 4),
        .resizeSettled 0 (.ok 5), .zipSettled 0 (.ok ()), .idleTimeout]).map
        (fun s => (s.isRecording, s.statusLabel))
      = some (true, "Idle") :=
  ⟨by decide, by decide, by decide, by decide, by decide⟩

/-! ## Export completion -/

theorem takeFrame_isRecording (save : Bool) (s : Session) :
    (takeFrame save s).isRecording = s.isRecording := by
  unfold takeFrame
  split <;> rfl

theorem takeFrameFetched_isRecording (s s1 : Session) (i : Nat) (r : Except Thrown Blob)
    (hs : takeFrameFetched s i r = some (.ok s1)) : s1.isRecording = s.isRecording := by
  unfold takeFrameFetched at hs
  split at hs
  · rename_i save hget
    cases r with
    | error e =>
      simp only [takeFrameSettle, setStatus, Option.some.injEq, Except.ok.injEq] at hs
      subst hs
      rfl
    | ok blob =>
      cases save <;>
        simp only [updatePreview, takeFrameSettle, Bool.false_eq_true, if_false, if_true,
          Option.some.injEq, Except.ok.injEq] at hs <;>
        subst hs <;> rfl
  · simp at hs

theorem takeFrameResized_isRecording (s s1 : Session) (i : Nat) (r : Except Thrown Blob)
    (hs : takeFrameResized s i r = some (.ok s1)) : s1.isRecording = s.isRecording := by
  unfold takeFrameResized at hs
  split at hs
  · cases r <;>
      simp only [takeFrameSettle, setStatus, updateCount, Option.some.injEq,
        Except.ok.injEq] at hs <;>
      subst hs <;> rfl
  · simp at hs

/-- What the completion of an export leaves: an empty buffer, a zero count, the
status of the outcome, one more delayed "Idle" write, `isRecording` untouched. -/
theorem stopRecordingZipped_result (s s1 : Session) (i : Nat) (r : Except Thrown Unit)
    (hs : stopRecordingZipped s i r = some s1) :
    s1.captures = [] ∧ s1.captureCount = 0 ∧ s1.isRecording = s.isRecording ∧
    s1.idleTimeouts = s.idleTimeouts + 1 ∧
    (∀ u, r = .ok u → s1.statusLabel = "Download ready") ∧
    (∀ e, r = .error e → s1.statusLabel = exportFailureText e) := by
  unfold stopRecordingZipped at hs
  split at hs
  · simp only [Option.some.injEq] at hs
    subst hs
    cases r <;> simp [stopRecordingSettle, stopRecordingTry, setStatus, updateCount]
  · simp at hs

theorem step_keeps_idle (s s1 : Session) (e : Event) (hne : e ≠ .start)
    (h : s.isRecording = false) (hs : step s e = some s1) : s1.isRecording = false := by
  cases e with
  | previewTick =>
    simp only [step, Option.some.injEq] at hs
    subst hs
    split
    · rw [takeFrame_isRecording]; exact h
    · exact h
  | recordingTick =>
    simp only [step] at hs
    split at hs
    · simp only [Option.some.injEq] at hs
      subst hs
      rw [takeFrame_isRecording]; exact h
    · simp at hs
  | start => exact absurd rfl hne
  | stop =>
    simp only [step, Option.some.injEq] at hs
    subst hs
    simp [stopRecording, h]
  | editInterval v =>
    simp only [step, Option.some.injEq] at hs
    subst hs
    exact h
  | fetchSettled i r =>
    simp only [step] at hs
    split at hs
    · rename_i s2 heq
      simp only [Option.some.injEq] at hs
      subst hs
      rw [takeFrameFetched_isRecording s _ i r heq]; exact h
    · simp at hs
  | resizeSettled i r =>
    simp only [step] at hs
    split at hs
    · rename_i s2 heq
      simp only [Option.some.injEq] at hs
      subst hs
      rw [takeFrameResized_isRecording s _ i r heq]; exact h
    · simp at hs
  | zipSettled i r =>
    simp only [step] at hs
    rw [(stopRecordingZipped_result s s1 i r hs).2.2.1]; exact h
  | idleTimeout =>
    simp only [step] at hs
    split at hs
    · simp at hs
    · simp only [Option.some.injEq] at hs
      subst hs
      exact h

theorem run_keeps_idle (es : List Event) : ∀ (s s1 : Session),
    (∀ e ∈ es, e ≠ Event.start) → s.isRecording = false → run s es = some s1 →
    s1.isRecording = false := by
  induction es with
  | nil =>
    intro s s1 _ h hs
    simp only [run, Option.some.injEq] at hs
    subst hs
    exact h
  | cons e es ih =>
    intro s s1 hne h hs
    simp only [run] at hs
    split at hs
    · rename_i s2 hstep
      exact ih s2 s1 (fun e1 he1 => hne e1 (List.mem_cons_of_mem _ he1))
        (step_keeps_idle s s2 e (hne e (List.mem_cons_self _ _)) h hstep) hs
    · simp at hs

/-- Export completion with no `start()` since the `stop()`: `stop()` on a Recording
session with a non-empty buffer.  Without JSZip the export fails at once: empty
buffer, not Recording, status "JSZip not loaded".  With JSZip one export is left
pending and it can complete with either outcome; whenever an export completes,
with no `start()` since the `stop()`, the buffer is empty, the session is not
Recording, the status is "Download ready" on success and on failure the error's
message if it has a non-empty one, else "ZIP failed".  The delayed write then
sets the status to "Idle". -/
theorem export_completion_clears_and_idles (s : Session)
    (hrec : s.isRecording = true) (hne : s.captures ≠ []) :
    (s.jszipLoaded = false →
      (stopRecording s).captures = [] ∧ (stopRecording s).isRecording = false ∧
      (stopRecording s).statusLabel = "JSZip not loaded" ∧
      (stopRecording s).exports = s.exports ∧
      ∃ s2, step (stopRecording s) .idleTimeout = some s2 ∧ s2.statusLabel = "Idle" ∧
        s2.captures = [] ∧ s2.isRecording = false) ∧
    (s.jszipLoaded = true →
      ∃ zip, buildZip true s.captures = .ok zip ∧
        (stopRecording s).exports = s.exports ++ [zip] ∧
        (stopRecording s).isRecording = false ∧
        ∀ r : Except Thrown Unit,
          ∃ s2, step (stopRecording s) (.zipSettled s.exports.length r) = some s2) ∧
    (∀ (es : List Event) (s1 s2 : Session) (i : Nat) (r : Except Thrown Unit),
      (∀ e ∈ es, e ≠ Event.start) → run (stopRecording s) es = some s1 →
      step s1 (.zipSettled i r) = some s2 →
      s2.captures = [] ∧ s2.captureCount = 0 ∧ s2.isRecording = false ∧
      (∀ u, r = .ok u → s2.statusLabel = "Download ready") ∧
      (∀ e, r = .error e → s2.statusLabel = exportFailureText e) ∧
      ∃ s3, step s2 .idleTimeout = some s3 ∧ s3.statusLabel = "Idle" ∧
        s3.captures = [] ∧ s3.isRecording = false) ∧
    (∀ m : String, m ≠ "" → exportFailureText (.object (some m)) = m) ∧
    exportFailureText (.object (some "")) = "ZIP failed" ∧
    exportFailureText (.object none) = "ZIP failed" ∧
    exportFailureText .falsy = "ZIP failed" := by
  have hlen : s.captures.length ≠ 0 := fun h0 => hne (List.length_eq_zero.mp h0)
  have hstop : (stopRecording s).isRecording = false := by
    unfold stopRecording stopRecordingSettle setStatus updateCount
    cases hb : buildZip s.jszipLoaded s.captures <;>
      by_cases h2 : s.recordingTimer.isSome = true <;>
      simp [hrec, h2, hlen, hb]
  refine ⟨?_, ?_, ?_, ?_, rfl, rfl, rfl⟩
  · intro hj
    have hb : buildZip s.jszipLoaded s.captures
        = .error (.object (some "JSZip not loaded")) := by
      simp [buildZip, hj]
    unfold stopRecording stopRecordingSettle setStatus updateCount
    by_cases h2 : s.recordingTimer.isSome = true <;>
      simp [hrec, h2, hlen, hb, exportFailureText, step, setStatus]
  · intro hj
    have hb := buildZip_ok s.captures hne
    refine ⟨_, hb, ?_, hstop, ?_⟩
    · unfold stopRecording stopRecordingSettle setStatus updateCount
      by_cases h2 : s.recordingTimer.isSome = true <;>
        simp [hrec, h2, hlen, hb, hj]
    · intro r
      have hex : (stopRecording s).exports
          = s.exports ++ [s.captures.enum.map (fun e => (filename e.1, e.2))] := by
        unfold stopRecording stopRecordingSettle setStatus updateCount
        by_cases h2 : s.recordingTimer.isSome = true <;>
          simp [hrec, h2, hlen, hb, hj]
      simp [step, stopRecordingZipped, hex]
  · intro es s1 s2 i r hns hrun hstep
    have hidle := run_keeps_idle es _ s1 hns hstop hrun
    simp only [step] at hstep
    obtain ⟨c1, c2, c3, c4, c5, c6⟩ := stopRecordingZipped_result s1 s2 i r hstep
    refine ⟨c1, c2, c3.trans hidle, c5, c6, ?_⟩
    have hpos : s2.idleTimeouts ≠ 0 := by omega
    simp only [step, hpos, if_false]
    exact ⟨_, rfl, rfl, c1, c3.trans hidle⟩
  · intro m hm
    simp [exportFailureText, hm]

/-- A session recording one frame: after `stop()` the export is pending, and its
failure with a message-less error leaves an empty buffer, a session that is not
Recording, and the status "ZIP failed". -/
theorem export_completion_clears_and_idles_witness :
    (after [.fetchSettled 0 (.ok 1), .start, .fetchSettled 0 (.ok 2),
      .resizeSettled 0 (.ok 3)]).isRecording = true ∧
    (after [.fetchSettled 0 (.ok 1), .start, .fetchSettled 0 (.ok 2),
      .resizeSettled 0 (.ok 3)]).captures = [3] ∧
    (after [.fetchSettled 0 (.ok 1), .start, .fetchSettled 0 (.ok 2),
      .resizeSettled 0 (.ok 3), .stop, .previewTick,
      .zipSettled 0 (.error (.object none))]).captures = [] ∧
    (after [.fetchSettled 0 (.ok 1), .start, .fetchSettled 0 (.ok 2),
      .resizeSettled 0 (.ok 3), .stop, .previewTick,
      .zipSettled 0 (.error (.object none))]).statusLabel = "ZIP failed" ∧
    exportFailureText (.object (some "disk full")) = "disk full" :=
  ⟨by decide, by decide, by decide, by decide,
   (export_completion_clears_and_idles
      (after [.fetchSettled 0 (.ok 1), .start, .fetchSettled 0 (.ok 2),
        .resizeSettled 0 (.ok 3)]) (by decide) (by decide)).2.2.2.1 "disk full" (by decide)⟩

/-- C8 fails on this run (the start button is enabled after `stop()`): a session
Recording with one frame is stopped; while its archive is being generated
`start()` is invoked; the export then fails with the message "disk full".  The
buffer is empty and the status is the error's message, but the session is
Recording with its timer armed, and it still is when the delayed write sets
the status to "Idle". -/
theorem export_completion_during_new_session :
    (run (pageLoaded true) [.fetchSettled 0 (.ok 1), .start, .fetchSettled 0 (.ok 2),
        .resizeSettled 0 (.ok 3)]).map (fun s => (s.isRecording, s.captures))
      = some (true, [3]) ∧
    (run (pageLoaded true) [.fetchSettled 0 (.ok 1), .start, .fetchSettled 0 (.ok 2),
        .resizeSettled 0 (.ok 3), .stop]).map
        (fun s => (s.isRecording, s.startBtnDisabled, s.exports.length))
      = some (false, false, 1) ∧
    (run (pageLoaded true) [.fetchSettled 0 (.ok 1), .start, .fetchSettled 0 (.ok 2),
        .resizeSettled 0 (.ok 3), .stop, .start,
        .zipSettled 0 (.error (.object (some "disk full")))]).map
        (fun s => (s.captures, s.statusLabel, s.exports.length))
      = some ([], "disk full", 0) ∧
    (run (pageLoaded true) [.fetchSettled 0 (.ok 1), .start, .fetchSettled 0 (.ok 2),
        .resizeSettled 0 (.ok 3), .stop, .start,
        .zipSettled 0 (.error (.object (some "disk full")))]).map
        (fun s => (s.isRecording, s.recordingTimer.isSome))
      = some (true, true) ∧
    (run (pageLoaded true) [.fetchSettled 0 (.ok 1), .start, .fetchSettled 0 (.ok 2),
        .resizeSettled 0 (.ok 3), .stop, .start,
        .zipSettled 0 (.error (.object (some "disk full"))), .idleTimeout]).map
        (fun s => (s.isRecording, s.statusLabel))
      = some (true, "Idle") :=
  ⟨by decide, by decide, by decide, by decide, by decide⟩

/-! ## The buffer during a recording session -/

theorem takeFrame_captures (save : Bool) (s : Session) :
    (takeFrame save s).captures = s.captures := by
  unfold takeFrame
  split <;> rfl

/-- Every event other than `stop()`, the completion of an export and a `start()`
from a session that is not Recording leaves the buffer as it is or appends one
frame. -/
theorem step_keeps_or_appends (s s1 : Session) (e : Event)
    (hstart : e = .start → s.isRecording = true) (hstop : e ≠ .stop)
    (hzip : ∀ i r, e ≠ .zipSettled i r) (hs : step s e = some s1) :
    s1.captures = s.captures ∨ ∃ f, s1.captures = s.captures ++ [f] := by
  cases e with
  | previewTick =>
    simp only [step, Option.some.injEq] at hs
    subst hs
    left
    split
    · exact takeFrame_captures _ _
    · rfl
  | recordingTick =>
    simp only [step] at hs
    split at hs
    · simp only [Option.some.injEq] at hs
      subst hs
      exact Or.inl (takeFrame_captures _ _)
    · simp at hs
  | start =>
    simp only [step, Option.some.injEq] at hs
    subst hs
    simp [startRecording, hstart rfl]
  | stop => exact absurd rfl hstop
  | editInterval v =>
    simp only [step, Option.some.injEq] at hs
    subst hs
    exact Or.inl rfl
  | fetchSettled i r =>
    simp only [step] at hs
    split at hs
    · rename_i s2 heq
      simp only [Option.some.injEq] at hs
      subst hs
      left
      unfold takeFrameFetched at heq
      split at heq
      · rename_i save hget
        cases r with
        | error e =>
          simp only [takeFrameSettle, setStatus, Option.some.injEq, Except.ok.injEq] at heq
          subst heq
          rfl
        | ok blob =>
          cases save <;>
            simp only [updatePreview, takeFrameSettle, Bool.false_eq_true, if_false, if_true,
              Option.some.injEq, Except.ok.injEq] at heq <;>
            subst heq <;> rfl
      · simp at heq
    · simp at hs
  | resizeSettled i r =>
    simp only [step] at hs
    split at hs
    · rename_i s2 heq
      simp only [Option.some.injEq] at hs
      subst hs
      unfold takeFrameResized at heq
      split at heq
      · cases r with
        | error e =>
          simp only [takeFrameSettle, setStatus, Option.some.injEq, Except.ok.injEq] at heq
          subst heq
          exact Or.inl rfl
        | ok resized =>
          simp only [takeFrameSettle, updateCount, Option.some.injEq, Except.ok.injEq] at heq
          subst heq
          exact Or.inr ⟨resized, rfl⟩
      · simp at heq
    · simp at hs
  | zipSettled i r => exact absurd rfl (hzip i r)
  | idleTimeout =>
    simp only [step] at hs
    split at hs
    · simp at hs
    · simp only [Option.some.injEq] at hs
      subst hs
      exact Or.inl rfl

/-- While the session is Recording, every event other than `stop()` and the
completion of an export leaves the buffer as it is or appends one frame. -/
theorem recording_step_keeps_or_appends (s s1 : Session) (e : Event)
    (hrec : s.isRecording = true) (hstop : e ≠ .stop)
    (hzip : ∀ i r, e ≠ .zipSettled i r) (hs : step s e = some s1) :
    s1.captures = s.captures ∨ ∃ f, s1.captures = s.captures ++ [f] :=
  step_keeps_or_appends s s1 e (fun _ => hrec) hstop hzip hs

/-- The only events that can shorten the buffer: `start()` from a session that
is not Recording, the completion of an export, and a `stop()` whose export fails
at once because JSZip is missing; each of them empties it. -/
theorem buffer_cleared_only_by_start_or_export (s s1 : Session) (e : Event)
    (hs : step s e = some s1) (hshort : s1.captures.length < s.captures.length) :
    s1.captures = [] ∧
      ((e = .start ∧ s.isRecording = false) ∨ (∃ i r, e = .zipSettled i r) ∨
        (e = .stop ∧ s.isRecording = true ∧ s.jszipLoaded = false)) := by
  by_cases hz : ∃ i r, e = .zipSettled i r
  · obtain ⟨i, r, he⟩ := hz
    subst he
    simp only [step] at hs
    exact ⟨(stopRecordingZipped_result s s1 i r hs).1, Or.inr (Or.inl ⟨i, r, rfl⟩)⟩
  · have hzip : ∀ i r, e ≠ .zipSettled i r := fun i r he => hz ⟨i, r, he⟩
    by_cases hstart : e = .start
    · subst hstart
      simp only [step, Option.some.injEq] at hs
      subst hs
      by_cases hrec : s.isRecording = true
      · simp [startRecording, hrec] at hshort
      · have hf : s.isRecording = false := by simpa using hrec
        refine ⟨?_, Or.inl ⟨rfl, hf⟩⟩
        simp [startRecording, hf, takeFrame_captures, updateCount, setStatus]
    · by_cases hstop : e = .stop
      · subst hstop
        simp only [step, Option.some.injEq] at hs
        subst hs
        revert hshort
        unfold stopRecording stopRecordingSettle setStatus updateCount buildZip
        by_cases h1 : s.isRecording = true <;>
          by_cases h2 : s.recordingTimer.isSome = true <;>
          by_cases h3 : s.captures.length = 0 <;>
          by_cases h4 : s.jszipLoaded = true <;>
          simp [h1, h2, h3, h4]
      · exfalso
        rcases step_keeps_or_appends s s1 e (fun h => absurd h hstart) hstop hzip hs
          with h | ⟨f, h⟩
        · rw [h] at hshort; omega
        · rw [h] at hshort; simp at hshort

end TmCapture
